import Mathlib

/-!
Shallow embedding of the soeji image-conversion service (Rust sources under
`src/converter/src/`) and verification of the frozen specification claims.

Modelling conventions:
* Rust strings are modelled as `List Char`; byte buffers as `List Nat`.
* `u32` / `u8` values are modelled as `Nat`; where the Rust code performs a
  saturating `as u32` cast the model takes `min _ u32Max` explicitly.
* `f64` arithmetic in the width-only/height-only resize arms is modelled
  bit-faithfully: each rounded operation goes through `fl64`, correctly
  rounded binary64 (round to nearest, ties to even), so the model reproduces
  cases such as `49.0 * (1.0 / 49.0) = 1 - 2⁻⁵³` truncating to 0.  In the
  image crate's `resize_dimensions` helper the `f64` steps are modelled by
  exact rationals: under the bounds assumed by the COVER theorems the
  floating-point error there cannot move `.round()` across any of the
  thresholds those results depend on, and the COVER counterexample path is
  float-exact.  Truncating `as u32` / `as u64` casts on non-negative values
  become `Nat`-level floors with explicit saturation.
* External collaborators (the S3 fetch, the image decoder, and the PNG/WebP
  byte encoders) are opaque parameters: only which arguments the code passes
  to them is modelled, exactly as in the source.
-/

namespace Soeji

/-- Output format of the converter (`services/converter.rs`, `OutputFormat`).
The Rust `#[default]` variant is `WebP`. -/
inductive OutputFormat
  | Png
  | WebP
deriving DecidableEq, Repr

/-- Default of `OutputFormat` as derived in the Rust source (`#[default]` on `WebP`). -/
def OutputFormat.default : OutputFormat := OutputFormat.WebP

/-- Fit mode (`services/converter.rs`, `FitMode`); the Rust `#[default]` variant is `Cover`. -/
inductive FitMode
  | Cover
  | Contain
  | Fill
deriving DecidableEq, Repr

/-- Error taxonomy (`error.rs`, `ConverterError`).  `ImageError` carries the
formatted message of the wrapped `image::ImageError`. -/
inductive ConverterError
  | NotFound (msg : String)
  | S3Error (msg : String)
  | ImageError (msg : String)
  | WebPError (msg : String)
  | InvalidParameter (msg : String)
  | DimensionTooLarge (requested maxd : Nat)
  | Internal (msg : String)
deriving DecidableEq, Repr

/-- Core-relevant configuration fields (`config.rs`, `Config`); defaults from
the environment are 85 and 4096. -/
structure Config where
  webp_default_quality : Nat
  max_dimension : Nat
deriving DecidableEq, Repr

/-- `str::trim_start_matches('/')`: drop every leading `'/'`. -/
def trimStartSlashes : List Char → List Char
  | [] => []
  | c :: cs => if c = '/' then trimStartSlashes cs else c :: cs

/-- `path.find('/')` followed by slicing `&path[..pos]` / `&path[pos + 1..]`:
split at the first `'/'`, returning the parts before and after it, or `none`
when no `'/'` occurs. -/
def splitFirstSlash : List Char → Option (List Char × List Char)
  | [] => none
  | c :: cs =>
    if c = '/' then some ([], cs)
    else (splitFirstSlash cs).map (fun p => (c :: p.1, p.2))

/-- `parse_path` (`handlers/image.rs` lines 22-42): strip leading slashes,
split at the first `'/'` into bucket and key, reject empty components. -/
def parse_path (path : List Char) : Except ConverterError (List Char × List Char) :=
  let path := trimStartSlashes path
  match splitFirstSlash path with
  | some bk =>
    if bk.1.isEmpty then
      Except.error (ConverterError.InvalidParameter "bucket name is empty")
    else if bk.2.isEmpty then
      Except.error (ConverterError.InvalidParameter "object key is empty")
    else
      Except.ok (bk.1, bk.2)
  | none =>
    Except.error (ConverterError.InvalidParameter "path must be in format: /{bucket}/{key}")

/-- `str::contains`: Boolean substring test, scanning for a prefix match at
every suffix of the haystack. -/
def containsSubstring (needle : List Char) : List Char → Bool
  | [] => needle.isEmpty
  | c :: t => needle.isPrefixOf (c :: t) || containsSubstring needle t

/-- `determine_format` (`handlers/image.rs` lines 130-141).  The `Option`
argument models `headers.get(ACCEPT).and_then(|v| v.to_str().ok())`: the
Accept header value when present and readable.  A missing value is replaced
by the empty string before the substring test, exactly as `unwrap_or("")`. -/
def determine_format (accept : Option (List Char)) : OutputFormat :=
  let a := accept.getD []
  if containsSubstring "image/webp".toList a then OutputFormat.WebP
  else OutputFormat.Png

/-- `FitMode::from_str` (`services/converter.rs` lines 23-30): lowercase then
match against the three fit-mode names. -/
def FitMode.from_str (s : List Char) : Option FitMode :=
  let l := s.map Char.toLower
  if l = "cover".toList then some FitMode.Cover
  else if l = "contain".toList then some FitMode.Contain
  else if l = "fill".toList then some FitMode.Fill
  else none

/-- An in-memory decoded image, tracked by its pixel dimensions only: every
claim about the conversion pipeline concerns geometry, formats and errors,
never individual pixel values. -/
structure Image where
  width : Nat
  height : Nat
deriving DecidableEq, Repr

/-- `u32::MAX`. -/
def u32Max : Nat := 4294967295

/-- `x as uN` on a non-negative `f64` value: truncate toward zero.  Written
on the rational's numerator and denominator so that it evaluates by kernel
reduction; equal to `⌊x⌋.toNat` (see `ratTruncNat_cast_eq_floor`).  Saturation
of the cast to a fixed width is applied at use sites. -/
def ratTruncNat (x : ℚ) : Nat := x.num.toNat / x.den

/-- `f64::round(..) as uN` on a non-negative value: round half up (for the
non-negative values arising here this agrees with `f64`'s round half away
from zero), then the integer result as a `Nat`. -/
def ratRoundNat (x : ℚ) : Nat := ratTruncNat (x + 1 / 2)

/-- Fuel-driven binary logarithm on `Nat` (floor of log2), written with
explicit fuel so that it evaluates by kernel reduction; `nlog2` supplies
enough fuel.  Specification: `log2fuel_spec`. -/
def log2fuel : Nat → Nat → Nat
  | 0, _ => 0
  | fuel + 1, n => if 2 ≤ n then log2fuel fuel (n / 2) + 1 else 0

/-- Floor of the binary logarithm of a positive `Nat`. -/
def nlog2 (n : Nat) : Nat := log2fuel n n

/-- The power `2 ^ k` in `ℚ` for an integer exponent, via `Nat` powers so
that it evaluates by kernel reduction; equal to the `zpow` `(2 : ℚ) ^ k`
(see `qexp2_eq_zpow`). -/
def qexp2 (k : ℤ) : ℚ :=
  if 0 ≤ k then ((2 ^ k.toNat : Nat) : ℚ) else 1 / ((2 ^ (-k).toNat : Nat) : ℚ)

/-- Round a non-negative rational to the nearest integer, ties to even: the
integer-rounding step of IEEE-754 round-to-nearest. -/
def roundNearestEven (y : ℚ) : Nat :=
  if y - (ratTruncNat y : ℚ) < 1 / 2 then ratTruncNat y
  else if (1 : ℚ) / 2 < y - (ratTruncNat y : ℚ) then ratTruncNat y + 1
  else if ratTruncNat y % 2 = 0 then ratTruncNat y else ratTruncNat y + 1

/-- Floor of the binary logarithm of a positive rational, computed from the
binary logarithms of numerator and denominator plus one comparison.
Specification: `qlog2floor_spec`. -/
def qlog2floor (x : ℚ) : ℤ :=
  if qexp2 ((nlog2 x.num.toNat : ℤ) - (nlog2 x.den : ℤ)) ≤ x then
    (nlog2 x.num.toNat : ℤ) - (nlog2 x.den : ℤ)
  else (nlog2 x.num.toNat : ℤ) - (nlog2 x.den : ℤ) - 1

/-- Round a positive rational to the nearest IEEE binary64 value (round to
nearest, ties to even): scale into the 53-bit mantissa window
`[2^52, 2^53)`, round the mantissa to an integer with ties to even, and
scale back.  Every value arising in the modelled code paths lies in the
normal binary64 range, so exponent overflow/underflow never occurs there; a
non-positive argument (which the modelled code never produces) is mapped
to 0. -/
def fl64 (x : ℚ) : ℚ :=
  if x ≤ 0 then 0
  else (roundNearestEven (x * qexp2 (52 - qlog2floor x)) : ℚ) * qexp2 (qlog2floor x - 52)

/-- `image::math::utils::resize_dimensions` of the image crate (v0.24), the
geometry helper behind `resize` / `resize_to_fill`: pick the covering
(`fill = true`) or containing (`fill = false`) aspect-preserving scale factor,
round the scaled dimensions, force them to at least 1, and clamp to
`u32::MAX`.  In the two clamping branches the Rust code recomputes the other
axis from a `u32::MAX / dim` scale with a saturating `as u32` cast. -/
def resize_dimensions (w h nw nh : Nat) (fill : Bool) : Nat × Nat :=
  let ratioW : ℚ := (nw : ℚ) / (w : ℚ)
  let ratioH : ℚ := (nh : ℚ) / (h : ℚ)
  let ratioSel : ℚ := if fill then max ratioW ratioH else min ratioW ratioH
  let nw2 : Nat := max (ratRoundNat ((w : ℚ) * ratioSel)) 1
  let nh2 : Nat := max (ratRoundNat ((h : ℚ) * ratioSel)) 1
  if nw2 > u32Max then
    let r2 : ℚ := (u32Max : ℚ) / (w : ℚ)
    (u32Max, max (min (ratRoundNat ((h : ℚ) * r2)) u32Max) 1)
  else if nh2 > u32Max then
    let r2 : ℚ := (u32Max : ℚ) / (h : ℚ)
    (max (min (ratRoundNat ((w : ℚ) * r2)) u32Max) 1, u32Max)
  else (nw2, nh2)

/-- `DynamicImage::resize_exact`: the output has exactly the requested
dimensions (the resampling itself does not affect geometry). -/
def resize_exact (_img : Image) (nw nh : Nat) : Image := Image.mk nw nh

/-- `imageops::crop` bounds clamping (`crop_dimms` in the image crate): the
crop rectangle is intersected with the image, so the resulting dimensions are
the requested ones clamped to what remains beyond the (clamped) offsets. -/
def crop_dimms (img : Image) (x y w h : Nat) : Image :=
  let x2 := min x img.width
  let y2 := min y img.height
  Image.mk (min w (img.width - x2)) (min h (img.height - y2))

/-- `DynamicImage::resize` (CONTAIN geometry): scale to the aspect-preserving
dimensions that fit inside the box. -/
def resize (img : Image) (nw nh : Nat) : Image :=
  let d := resize_dimensions img.width img.height nw nh false
  resize_exact img d.1 d.2

/-- `DynamicImage::resize_to_fill` (COVER geometry, image crate v0.24): scale
to the covering dimensions, then center-crop the overflowing axis down to the
requested box.  The `u32` subtractions of the Rust code are modelled by
truncating `Nat` subtraction; in the branch actually taken the minuend always
dominates, so no wrap-around behaviour is hidden by this. -/
def resize_to_fill (img : Image) (nw nh : Nat) : Image :=
  let d := resize_dimensions img.width img.height nw nh true
  let intermediate := resize_exact img d.1 d.2
  let cmpA := intermediate.width * nh
  let cmpB := nw * intermediate.height
  if cmpB > cmpA then
    crop_dimms intermediate 0 ((intermediate.height - nh) / 2) nw nh
  else
    crop_dimms intermediate ((intermediate.width - nw) / 2) 0 nw nh

/-- `resize_image` (`services/converter.rs` lines 75-103).  The width-only and
height-only arms compute the other dimension as
`(other as f64 * (target as f64 / base as f64)) as u32`: the `u32`-to-`f64`
casts are exact (u32 fits in 53 bits), the division and the multiplication
are each correctly rounded to binary64 (`fl64`, round to nearest, ties to
even, the IEEE default Rust uses), and the final cast truncates toward zero
and saturates at `u32::MAX`. -/
def resize_image (img : Image) (width height : Option Nat) (fit_mode : FitMode) : Image :=
  match width, height with
  | some w, some h =>
    match fit_mode with
    | FitMode.Cover => resize_to_fill img w h
    | FitMode.Contain => resize img w h
    | FitMode.Fill => resize_exact img w h
  | some w, none =>
    let ratioW : ℚ := fl64 ((w : ℚ) / (img.width : ℚ))
    let new_height : Nat := min (ratTruncNat (fl64 ((img.height : ℚ) * ratioW))) u32Max
    resize_exact img w new_height
  | none, some h =>
    let ratioH : ℚ := fl64 ((h : ℚ) / (img.height : ℚ))
    let new_width : Nat := min (ratTruncNat (fl64 ((img.width : ℚ) * ratioH))) u32Max
    resize_exact img new_width h
  | none, none => img

/-- `encode_image` (`services/converter.rs` lines 105-123), with the byte
encoders abstract: the PNG branch hands the image (and nothing else) to the
PNG writer, which may fail; the WebP branch hands the image and the quality to
the WebP encoder. -/
def encode_image (pngEnc : Image → Except ConverterError (List Nat))
    (webpEnc : Image → Nat → List Nat) (img : Image) (format : OutputFormat)
    (quality : Nat) : Except ConverterError (List Nat × String) :=
  match format with
  | OutputFormat.Png =>
    match pngEnc img with
    | Except.error e => Except.error e
    | Except.ok buffer => Except.ok (buffer, "image/png")
  | OutputFormat.WebP => Except.ok (webpEnc img quality, "image/webp")

/-- `ConversionRequest` (`services/converter.rs`). -/
structure ConversionRequest where
  data : List Nat
  width : Option Nat
  height : Option Nat
  output_format : OutputFormat
  quality : Nat
  fit_mode : FitMode

/-- `ConversionResult` (`services/converter.rs`). -/
structure ConversionResult where
  data : List Nat
  content_type : String
  original_width : Nat
  original_height : Nat
  output_width : Nat
  output_height : Nat
deriving DecidableEq, Repr

/-- `convert` (`services/converter.rs` lines 51-73), with the decoder and
encoders abstract: decode, resize, encode, and report the pre-resize
dimensions as the original ones. -/
def convert (decode : List Nat → Except ConverterError Image)
    (pngEnc : Image → Except ConverterError (List Nat))
    (webpEnc : Image → Nat → List Nat)
    (request : ConversionRequest) : Except ConverterError ConversionResult :=
  match decode request.data with
  | Except.error e => Except.error e
  | Except.ok img =>
    let resized := resize_image img request.width request.height request.fit_mode
    match encode_image pngEnc webpEnc resized request.output_format request.quality with
    | Except.error e => Except.error e
    | Except.ok dc =>
      Except.ok
        { data := dc.1
          content_type := dc.2
          original_width := img.width
          original_height := img.height
          output_width := resized.width
          output_height := resized.height }

/-- Query parameters of the image endpoint (`handlers/image.rs`, `ImageQuery`). -/
structure ImageQuery where
  w : Option Nat
  h : Option Nat
  q : Option Nat
  fit : Option (List Char)

/-- The width/height validation block of `get_image` (`handlers/image.rs`
lines 54-69): an absent dimension passes, an oversized one is
`DimensionTooLarge`, and zero is `InvalidParameter` with the given message. -/
def check_dim (maxDim : Nat) (v : Option Nat) (msg : String) : Except ConverterError Unit :=
  match v with
  | none => Except.ok ()
  | some d =>
    if d > maxDim then Except.error (ConverterError.DimensionTooLarge d maxDim)
    else if d = 0 then Except.error (ConverterError.InvalidParameter msg)
    else Except.ok ()

/-- The quality validation of `get_image` (`handlers/image.rs` lines 72-75). -/
def check_quality (q : Nat) : Except ConverterError Nat :=
  if q = 0 || q > 100 then
    Except.error (ConverterError.InvalidParameter "quality must be between 1 and 100")
  else Except.ok q

/-- The HTTP response assembled by `get_image` on success. -/
structure Response where
  status : Nat
  content_type : String
  cache_control : String
  vary : String
  body : List Nat
deriving DecidableEq, Repr

/-- `get_image` (`handlers/image.rs` lines 44-128), instrumented with a
Boolean recording whether the S3 fetch was invoked.  The validation steps run
in source order (path, width, height, quality, fit, format) and each failure
returns immediately, before `fetch`. -/
def get_image (cfg : Config)
    (fetch : List Char → List Char → Except ConverterError (List Nat))
    (decode : List Nat → Except ConverterError Image)
    (pngEnc : Image → Except ConverterError (List Nat))
    (webpEnc : Image → Nat → List Nat)
    (path : List Char) (params : ImageQuery) (accept : Option (List Char)) :
    Except ConverterError Response × Bool :=
  match parse_path path with
  | Except.error e => (Except.error e, false)
  | Except.ok bk =>
    match check_dim cfg.max_dimension params.w "width must be greater than 0" with
    | Except.error e => (Except.error e, false)
    | Except.ok _ =>
      match check_dim cfg.max_dimension params.h "height must be greater than 0" with
      | Except.error e => (Except.error e, false)
      | Except.ok _ =>
        match check_quality (params.q.getD cfg.webp_default_quality) with
        | Except.error e => (Except.error e, false)
        | Except.ok quality =>
          let fm := (params.fit.bind FitMode.from_str).getD FitMode.Cover
          let fmt := determine_format accept
          match fetch bk.1 bk.2 with
          | Except.error e => (Except.error e, true)
          | Except.ok data =>
            match convert decode pngEnc webpEnc
                { data := data
                  width := params.w
                  height := params.h
                  output_format := fmt
                  quality := quality
                  fit_mode := fm } with
            | Except.error e => (Except.error e, true)
            | Except.ok result =>
              (Except.ok
                { status := 200
                  content_type := result.content_type
                  cache_control := "public, max-age=31536000, immutable"
                  vary := "Accept"
                  body := result.data }, true)

/-- The pure validation prefix of `get_image` (everything before the S3
fetch that can fail): path parsing, dimension checks, quality check, in
source order. -/
def validate (cfg : Config) (path : List Char) (params : ImageQuery) :
    Except ConverterError ((List Char × List Char) × Nat) :=
  match parse_path path with
  | Except.error e => Except.error e
  | Except.ok bk =>
    match check_dim cfg.max_dimension params.w "width must be greater than 0" with
    | Except.error e => Except.error e
    | Except.ok _ =>
      match check_dim cfg.max_dimension params.h "height must be greater than 0" with
      | Except.error e => Except.error e
      | Except.ok _ =>
        match check_quality (params.q.getD cfg.webp_default_quality) with
        | Except.error e => Except.error e
        | Except.ok quality => Except.ok (bk, quality)

/-- Recognizer for the dead "bucket name is empty" error of `parse_path`. -/
def isBucketEmptyError : Except ConverterError (List Char × List Char) → Bool
  | Except.error (ConverterError.InvalidParameter m) => m == "bucket name is empty"
  | _ => false


/-! ### Bridge lemmas between the executable rational operations and floors -/

lemma ratTruncNat_eq_floor (x : ℚ) : ratTruncNat x = ⌊x⌋.toNat := by
  rcases le_or_lt 0 x with hx | hx
  · have hnum : 0 ≤ x.num := Rat.num_nonneg.mpr hx
    rw [ratTruncNat, Int.floor_toNat]
    have hcast : ((x.num.toNat : ℕ) : ℚ) = (x.num : ℚ) := by
      exact_mod_cast congrArg Int.cast (Int.toNat_of_nonneg hnum)
    have hx' : x = ((x.num.toNat : ℕ) : ℚ) / ((x.den : ℕ) : ℚ) := by
      rw [hcast, Rat.num_div_den]
    conv_rhs => rw [hx', Nat.floor_div_nat, Nat.floor_natCast]
  · have h1 : x.num.toNat = 0 := by
      have h : ¬ 0 ≤ x.num := fun h => absurd (Rat.num_nonneg.mp h) (not_le.mpr hx)
      omega
    have h2 : ⌊x⌋.toNat = 0 := by
      have h : ¬ 0 ≤ ⌊x⌋ := fun h => absurd (Int.floor_nonneg.mp h) (not_le.mpr hx)
      omega
    simp [ratTruncNat, h1, h2]

lemma ratTruncNat_natCast_div (a b : Nat) : ratTruncNat ((a : ℚ) / (b : ℚ)) = a / b := by
  rw [ratTruncNat_eq_floor, Int.floor_toNat, Nat.floor_div_nat, Nat.floor_natCast]

lemma ratTruncNat_mul_div (a b c : Nat) :
    ratTruncNat ((a : ℚ) * ((b : ℚ) / (c : ℚ))) = a * b / c := by
  rw [show (a : ℚ) * ((b : ℚ) / (c : ℚ)) = ((a * b : Nat) : ℚ) / (c : ℚ) by
    push_cast; ring]
  exact ratTruncNat_natCast_div _ _

lemma ratRoundNat_natCast_div (a b : Nat) (hb : 0 < b) :
    ratRoundNat ((a : ℚ) / (b : ℚ)) = (2 * a + b) / (2 * b) := by
  have hbq : ((b : ℚ)) ≠ 0 := by positivity
  rw [ratRoundNat, show (a : ℚ) / (b : ℚ) + 1 / 2 = ((2 * a + b : Nat) : ℚ) / ((2 * b : Nat) : ℚ) by
    push_cast; field_simp; ring]
  exact ratTruncNat_natCast_div _ _

lemma ratRoundNat_mul_div (a b c : Nat) (hc : 0 < c) :
    ratRoundNat ((a : ℚ) * ((b : ℚ) / (c : ℚ))) = (2 * (a * b) + c) / (2 * c) := by
  rw [show (a : ℚ) * ((b : ℚ) / (c : ℚ)) = ((a * b : Nat) : ℚ) / (c : ℚ) by push_cast; ring]
  exact ratRoundNat_natCast_div _ _ hc

lemma le_ratRoundNat {n : Nat} {x : ℚ} (h : (n : ℚ) ≤ x) : n ≤ ratRoundNat x := by
  rw [ratRoundNat, ratTruncNat_eq_floor]
  have h1 : (n : ℤ) ≤ ⌊x + 1 / 2⌋ := by
    rw [Int.le_floor]; push_cast; linarith
  omega

lemma ratRoundNat_le {n : Nat} {x : ℚ} (h : x ≤ (n : ℚ)) : ratRoundNat x ≤ n := by
  rw [ratRoundNat, ratTruncNat_eq_floor]
  have h1 : ⌊x + 1 / 2⌋ ≤ ⌊(n : ℚ) + 1 / 2⌋ := Int.floor_mono (by linarith)
  have h2 : ⌊(n : ℚ) + 1 / 2⌋ = (n : ℤ) := by
    rw [Int.floor_eq_iff]
    constructor
    · push_cast; linarith
    · push_cast; linarith
  omega

/-! ### IEEE binary64 rounding lemmas -/

lemma log2fuel_spec : ∀ (fuel n : Nat), 0 < n → n ≤ fuel →
    2 ^ log2fuel fuel n ≤ n ∧ n < 2 ^ (log2fuel fuel n + 1) := by
  intro fuel
  induction fuel with
  | zero => intro n h1 h2; omega
  | succ f ih =>
    intro n h1 h2
    simp only [log2fuel]
    by_cases h3 : 2 ≤ n
    · rw [if_pos h3]
      have hrec := ih (n / 2) (by omega) (by omega)
      have e1 : (2 : Nat) ^ (log2fuel f (n / 2) + 1) = 2 * 2 ^ (log2fuel f (n / 2)) := by ring
      have e2 : (2 : Nat) ^ (log2fuel f (n / 2) + 1 + 1) =
          2 * 2 ^ (log2fuel f (n / 2) + 1) := by ring
      omega
    · rw [if_neg h3]
      have hn : n = 1 := by omega
      subst hn
      decide

lemma nlog2_spec (n : Nat) (hn : 0 < n) : 2 ^ nlog2 n ≤ n ∧ n < 2 ^ (nlog2 n + 1) :=
  log2fuel_spec n n hn le_rfl

lemma qexp2_eq_zpow (k : ℤ) : qexp2 k = (2 : ℚ) ^ k := by
  unfold qexp2
  split
  · rename_i h
    have h1 : (k.toNat : ℤ) = k := Int.toNat_of_nonneg h
    conv_rhs => rw [← h1]
    rw [zpow_natCast]
    push_cast
    ring
  · rename_i h
    have h1 : k = -(((-k).toNat : ℕ) : ℤ) := by omega
    conv_rhs => rw [h1]
    rw [zpow_neg, zpow_natCast, one_div]
    congr 1
    push_cast
    ring

lemma qexp2_pos (k : ℤ) : 0 < qexp2 k := by
  rw [qexp2_eq_zpow]
  positivity

lemma qexp2_mul (a b : ℤ) : qexp2 a * qexp2 b = qexp2 (a + b) := by
  rw [qexp2_eq_zpow, qexp2_eq_zpow, qexp2_eq_zpow,
    ← zpow_add₀ (by norm_num : (2 : ℚ) ≠ 0)]

lemma qexp2_natCast (n : Nat) : qexp2 (n : ℤ) = ((2 ^ n : Nat) : ℚ) := by
  rw [qexp2_eq_zpow, zpow_natCast]
  push_cast
  ring

lemma rat_nonneg_decomp (x : ℚ) (hx : 0 ≤ x) :
    x = ((x.num.toNat : ℕ) : ℚ) / ((x.den : ℕ) : ℚ) := by
  have hnum : 0 ≤ x.num := Rat.num_nonneg.mpr hx
  have hcast : ((x.num.toNat : ℕ) : ℚ) = (x.num : ℚ) := by
    exact_mod_cast congrArg Int.cast (Int.toNat_of_nonneg hnum)
  rw [hcast, Rat.num_div_den]

lemma qlog2floor_spec (x : ℚ) (hx : 0 < x) :
    qexp2 (qlog2floor x) ≤ x ∧ x < qexp2 (qlog2floor x + 1) := by
  have hn : 0 < x.num.toNat := by
    have h := Rat.num_pos.mpr hx
    omega
  have hd : 0 < x.den := x.den_pos
  obtain ⟨ha1, ha2⟩ := nlog2_spec x.num.toNat hn
  obtain ⟨hb1, hb2⟩ := nlog2_spec x.den hd
  have hxeq : x = ((x.num.toNat : ℕ) : ℚ) / ((x.den : ℕ) : ℚ) :=
    rat_nonneg_decomp x (le_of_lt hx)
  have hdQ : (0 : ℚ) < ((x.den : ℕ) : ℚ) := by exact_mod_cast hd
  set a := nlog2 x.num.toNat with hadef
  set b := nlog2 x.den with hbdef
  have low : qexp2 ((a : ℤ) - b - 1) < x := by
    rw [hxeq, lt_div_iff₀ hdQ]
    calc qexp2 ((a : ℤ) - b - 1) * ((x.den : ℕ) : ℚ)
        < qexp2 ((a : ℤ) - b - 1) * ((2 ^ (b + 1) : Nat) : ℚ) := by
          apply mul_lt_mul_of_pos_left _ (qexp2_pos _)
          exact_mod_cast hb2
      _ = qexp2 ((a : ℤ) - b - 1) * qexp2 ((b : ℤ) + 1) := by
          rw [show ((b : ℤ) + 1) = ((b + 1 : ℕ) : ℤ) by push_cast; ring, qexp2_natCast]
      _ = qexp2 (a : ℤ) := by rw [qexp2_mul]; congr 1; ring
      _ = ((2 ^ a : Nat) : ℚ) := qexp2_natCast a
      _ ≤ ((x.num.toNat : ℕ) : ℚ) := by exact_mod_cast ha1
  have high : x < qexp2 ((a : ℤ) - b + 1) := by
    rw [hxeq, div_lt_iff₀ hdQ]
    calc ((x.num.toNat : ℕ) : ℚ) < ((2 ^ (a + 1) : Nat) : ℚ) := by exact_mod_cast ha2
      _ = qexp2 ((a : ℤ) + 1) := by
          rw [show ((a : ℤ) + 1) = ((a + 1 : ℕ) : ℤ) by push_cast; ring, qexp2_natCast]
      _ = qexp2 ((a : ℤ) - b + 1) * qexp2 (b : ℤ) := by rw [qexp2_mul]; congr 1; ring
      _ = qexp2 ((a : ℤ) - b + 1) * ((2 ^ b : Nat) : ℚ) := by rw [qexp2_natCast]
      _ ≤ qexp2 ((a : ℤ) - b + 1) * ((x.den : ℕ) : ℚ) := by
          apply mul_le_mul_of_nonneg_left _ (le_of_lt (qexp2_pos _))
          exact_mod_cast hb1
  unfold qlog2floor
  rw [← hadef, ← hbdef]
  split
  · rename_i hcase
    exact ⟨hcase, high⟩
  · rename_i hcase
    constructor
    · exact le_of_lt low
    · rw [show (a : ℤ) - b - 1 + 1 = (a : ℤ) - b by ring]
      exact lt_of_not_le hcase

lemma roundNearestEven_bounds (y : ℚ) (hy : 0 ≤ y) :
    y - 1 / 2 ≤ (roundNearestEven y : ℚ) ∧ (roundNearestEven y : ℚ) ≤ y + 1 / 2 := by
  have h0 : (0 : ℤ) ≤ ⌊y⌋ := Int.floor_nonneg.mpr hy
  have hcast : ((ratTruncNat y : ℕ) : ℚ) = ((⌊y⌋ : ℤ) : ℚ) := by
    rw [ratTruncNat_eq_floor]
    exact_mod_cast congrArg Int.cast (Int.toNat_of_nonneg h0)
  have hfle : ((⌊y⌋ : ℤ) : ℚ) ≤ y := Int.floor_le y
  have hflt : y < ((⌊y⌋ : ℤ) : ℚ) + 1 := Int.lt_floor_add_one y
  unfold roundNearestEven
  split
  · rename_i h
    rw [hcast] at h ⊢
    constructor <;> linarith
  · split
    · rename_i h1 h2
      rw [hcast] at h2
      push_cast
      rw [hcast]
      constructor <;> linarith
    · split
      · rename_i h1 h2 h3
        rw [hcast] at h1 h2 ⊢
        constructor <;> linarith
      · rename_i h1 h2 h3
        rw [hcast] at h1 h2
        push_cast
        rw [hcast]
        constructor <;> linarith

lemma fl64_bounds (x : ℚ) (hx : 0 < x) :
    x - x / 2 ^ 53 ≤ fl64 x ∧ fl64 x ≤ x + x / 2 ^ 53 := by
  obtain ⟨hk1, _⟩ := qlog2floor_spec x hx
  set k := qlog2floor x with hkdef
  have hEpos := qexp2_pos (52 - k)
  have hFpos := qexp2_pos (k - 52)
  have hy : 0 ≤ x * qexp2 (52 - k) := le_of_lt (mul_pos hx hEpos)
  obtain ⟨hr1, hr2⟩ := roundNearestEven_bounds (x * qexp2 (52 - k)) hy
  have hcancel : qexp2 (52 - k) * qexp2 (k - 52) = 1 := by
    rw [qexp2_mul, show 52 - k + (k - 52) = (0 : ℤ) by ring, qexp2_eq_zpow, zpow_zero]
  have hhalf : qexp2 (k - 52) / 2 = qexp2 (k - 53) := by
    have e1 : qexp2 (k - 52) = qexp2 (k - 53) * qexp2 1 := by
      rw [qexp2_mul]
      congr 1
      ring
    have e2 : qexp2 (1 : ℤ) = 2 := by
      rw [qexp2_eq_zpow]
      norm_num
    rw [e1, e2]
    ring
  have hsmall : qexp2 (k - 53) ≤ x / 2 ^ 53 := by
    have e5 : qexp2 (k - 53) * qexp2 (53 : ℤ) = qexp2 k := by
      rw [qexp2_mul]
      congr 1
      ring
    have e4 : qexp2 (53 : ℤ) = (2 : ℚ) ^ 53 := by
      rw [qexp2_eq_zpow]
      norm_num
    have e3 : qexp2 (k - 53) = qexp2 k / 2 ^ 53 := by
      rw [← e5, e4, mul_div_assoc, div_self (by norm_num : ((2 : ℚ) ^ 53) ≠ 0), mul_one]
    rw [e3]
    gcongr
  have hlow : (x * qexp2 (52 - k) - 1 / 2) * qexp2 (k - 52) = x - qexp2 (k - 53) := by
    calc (x * qexp2 (52 - k) - 1 / 2) * qexp2 (k - 52)
        = x * (qexp2 (52 - k) * qexp2 (k - 52)) - qexp2 (k - 52) / 2 := by ring
      _ = x - qexp2 (k - 53) := by rw [hcancel, hhalf]; ring
  have hhigh : (x * qexp2 (52 - k) + 1 / 2) * qexp2 (k - 52) = x + qexp2 (k - 53) := by
    calc (x * qexp2 (52 - k) + 1 / 2) * qexp2 (k - 52)
        = x * (qexp2 (52 - k) * qexp2 (k - 52)) + qexp2 (k - 52) / 2 := by ring
      _ = x + qexp2 (k - 53) := by rw [hcancel, hhalf]; ring
  have hm1 := mul_le_mul_of_nonneg_right hr1 (le_of_lt hFpos)
  have hm2 := mul_le_mul_of_nonneg_right hr2 (le_of_lt hFpos)
  rw [hlow] at hm1
  rw [hhigh] at hm2
  have hfl : fl64 x = (roundNearestEven (x * qexp2 (52 - k)) : ℚ) * qexp2 (k - 52) := by
    simp only [fl64, ← hkdef]
    rw [if_neg (not_le.mpr hx)]
  rw [hfl]
  constructor
  · linarith
  · linarith

/-! ### String and path lemmas -/

lemma containsSubstring_iff_infix (needle hay : List Char) :
    containsSubstring needle hay = true ↔ needle <:+: hay := by
  induction hay with
  | nil => simp [containsSubstring, List.infix_nil, List.isEmpty_iff]
  | cons c t ih =>
    simp [containsSubstring, List.infix_cons_iff, List.isPrefixOf_iff_prefix, ih]

lemma trimStartSlashes_head (l : List Char) :
    trimStartSlashes l = [] ∨ ∃ c t, trimStartSlashes l = c :: t ∧ c ≠ '/' := by
  induction l with
  | nil => left; rfl
  | cons c cs ih =>
    by_cases hc : c = '/'
    · simpa [trimStartSlashes, hc] using ih
    · right; exact ⟨c, cs, by simp [trimStartSlashes, hc], hc⟩

lemma splitFirstSlash_cons_ne {c : Char} (cs : List Char) (hc : c ≠ '/') :
    splitFirstSlash (c :: cs) = (splitFirstSlash cs).map (fun p => (c :: p.1, p.2)) := by
  simp [splitFirstSlash, hc]

lemma parse_path_no_bucket_empty (path : List Char) :
    isBucketEmptyError (parse_path path) = false := by
  simp only [parse_path]
  rcases trimStartSlashes_head path with h | ⟨c, t, h, hc⟩
  · rw [h]; rfl
  · rw [h, splitFirstSlash_cons_ne t hc]
    cases hsp : splitFirstSlash t with
    | none => rfl
    | some p =>
      simp only [Option.map_some']
      simp only [List.isEmpty_cons]
      by_cases hk : p.2.isEmpty <;> simp [hk, isBucketEmptyError]

lemma parse_path_ok_nonempty (p b k : List Char) (h : parse_path p = Except.ok (b, k)) :
    b.isEmpty = false ∧ k.isEmpty = false := by
  simp only [parse_path] at h
  cases hsp : splitFirstSlash (trimStartSlashes p) with
  | none => rw [hsp] at h; exact absurd h (by simp)
  | some bk =>
    rw [hsp] at h
    by_cases h1 : bk.1.isEmpty <;> by_cases h2 : bk.2.isEmpty <;>
      simp [h1, h2] at h
    subst h
    constructor
    · simpa using h1
    · simpa using h2

/-! ### COVER geometry lemmas -/

lemma resize_dimensions_cover_bounds (ow oh w h : Nat)
    (how : 0 < ow) (hoh : 0 < oh)
    (hwM : w ≤ u32Max) (hhM : h ≤ u32Max)
    (hA : ow * h ≤ u32Max * oh) (hB : oh * w ≤ u32Max * ow) :
    w ≤ (resize_dimensions ow oh w h true).1 ∧
      h ≤ (resize_dimensions ow oh w h true).2 := by
  have howQ : (0 : ℚ) < (ow : ℚ) := by exact_mod_cast how
  have hohQ : (0 : ℚ) < (oh : ℚ) := by exact_mod_cast hoh
  set r : ℚ := max ((w : ℚ) / (ow : ℚ)) ((h : ℚ) / (oh : ℚ)) with hr
  have cancel1 : (ow : ℚ) * ((w : ℚ) / (ow : ℚ)) = (w : ℚ) := by field_simp
  have cancel2 : (oh : ℚ) * ((h : ℚ) / (oh : ℚ)) = (h : ℚ) := by field_simp
  have key1 : (w : ℚ) ≤ (ow : ℚ) * r := by
    rw [← cancel1]
    exact mul_le_mul_of_nonneg_left (le_max_left _ _) (le_of_lt howQ)
  have key3 : (h : ℚ) ≤ (oh : ℚ) * r := by
    rw [← cancel2]
    exact mul_le_mul_of_nonneg_left (le_max_right _ _) (le_of_lt hohQ)
  have key2 : (ow : ℚ) * r ≤ (u32Max : ℚ) := by
    rw [hr, mul_max_of_nonneg _ _ (le_of_lt howQ), cancel1]
    apply max_le
    · exact_mod_cast hwM
    · rw [mul_div_assoc', div_le_iff₀ hohQ]
      calc (ow : ℚ) * (h : ℚ) = ((ow * h : Nat) : ℚ) := by push_cast; ring
        _ ≤ ((u32Max * oh : Nat) : ℚ) := by exact_mod_cast hA
        _ = (u32Max : ℚ) * (oh : ℚ) := by push_cast; ring
  have key4 : (oh : ℚ) * r ≤ (u32Max : ℚ) := by
    rw [hr, mul_max_of_nonneg _ _ (le_of_lt hohQ), cancel2]
    apply max_le
    · rw [mul_div_assoc', div_le_iff₀ howQ]
      calc (oh : ℚ) * (w : ℚ) = ((oh * w : Nat) : ℚ) := by push_cast; ring
        _ ≤ ((u32Max * ow : Nat) : ℚ) := by exact_mod_cast hB
        _ = (u32Max : ℚ) * (ow : ℚ) := by push_cast; ring
    · exact_mod_cast hhM
  have b1 : w ≤ ratRoundNat ((ow : ℚ) * r) := le_ratRoundNat key1
  have b2 : ratRoundNat ((ow : ℚ) * r) ≤ u32Max := ratRoundNat_le key2
  have b3 : h ≤ ratRoundNat ((oh : ℚ) * r) := le_ratRoundNat key3
  have b4 : ratRoundNat ((oh : ℚ) * r) ≤ u32Max := ratRoundNat_le key4
  have hM1 : (1 : Nat) ≤ u32Max := by decide
  simp only [resize_dimensions, if_true, ← hr]
  rw [if_neg (by omega), if_neg (by omega)]
  exact ⟨by simp only []; omega, by simp only []; omega⟩

lemma resize_to_fill_exact (ow oh w h : Nat)
    (how : 0 < ow) (hoh : 0 < oh)
    (hwM : w ≤ u32Max) (hhM : h ≤ u32Max)
    (hA : ow * h ≤ u32Max * oh) (hB : oh * w ≤ u32Max * ow) :
    resize_to_fill (Image.mk ow oh) w h = Image.mk w h := by
  obtain ⟨b1, b2⟩ := resize_dimensions_cover_bounds ow oh w h how hoh hwM hhM hA hB
  simp only [resize_to_fill, resize_exact, crop_dimms]
  split
  · simp only [Image.mk.injEq]
    constructor <;> omega
  · simp only [Image.mk.injEq]
    constructor <;> omega


/-! ### Claim theorems -/

/-- C2 counterexample: a request with no Accept header at all is negotiated to
PNG by `determine_format`, not to WEBP as the claim states. -/
theorem C2_counterexample :
    determine_format none = OutputFormat.Png ∧ OutputFormat.Png ≠ OutputFormat.WebP :=
  ⟨rfl, by decide⟩

/-- C2 (amended): when the request carries no Accept header, the negotiated
output format is PNG; the `WebP` default variant of `OutputFormat` is never
consulted by the negotiator. -/
theorem C2_no_accept_gives_png :
    determine_format none = OutputFormat.Png ∧ OutputFormat.default = OutputFormat.WebP :=
  ⟨rfl, rfl⟩

/-- C3: for every accept signal string the negotiator returns WEBP iff the
string contains the substring "image/webp" and PNG otherwise, and the absence
of any signal yields PNG. -/
theorem C3_format_negotiation :
    (∀ s : List Char,
      (determine_format (some s) = OutputFormat.WebP ↔ "image/webp".toList <:+: s) ∧
      (determine_format (some s) = OutputFormat.Png ↔ ¬ ("image/webp".toList <:+: s))) ∧
    determine_format none = OutputFormat.Png := by
  refine ⟨fun s => ?_, rfl⟩
  simp only [determine_format, Option.getD_some]
  rw [← containsSubstring_iff_infix]
  by_cases hcs : containsSubstring "image/webp".toList s = true <;> simp [hcs]

/-- C4: the path "/bucket" (no key) and the path "//key" (empty bucket
segment) are both rejected with an `InvalidParameter` error, and every
successfully parsed (bucket, key) pair has nonempty components. -/
theorem C4_parse_path_rejects :
    parse_path "/bucket".toList =
      Except.error (ConverterError.InvalidParameter "path must be in format: /{bucket}/{key}") ∧
    parse_path "//key".toList =
      Except.error (ConverterError.InvalidParameter "path must be in format: /{bucket}/{key}") ∧
    ∀ p b k, parse_path p = Except.ok (b, k) → b.isEmpty = false ∧ k.isEmpty = false :=
  ⟨rfl, rfl, parse_path_ok_nonempty⟩

/-- C4 witness: the universal part of `C4_parse_path_rejects` applied to the
successfully parsed path "soeji-images/abc123.png". -/
theorem C4_parse_path_rejects_witness :
    "soeji-images".toList.isEmpty = false ∧ "abc123.png".toList.isEmpty = false :=
  C4_parse_path_rejects.2.2 "soeji-images/abc123.png".toList "soeji-images".toList
    "abc123.png".toList rfl

/-- C9: the "bucket name is empty" error branch of `parse_path` is
unreachable for every input, and "//key" instead falls through to the generic
format error. -/
theorem C9_bucket_empty_unreachable :
    (∀ path, isBucketEmptyError (parse_path path) = false) ∧
    parse_path "//key".toList =
      Except.error (ConverterError.InvalidParameter "path must be in format: /{bucket}/{key}") :=
  ⟨parse_path_no_bucket_empty, rfl⟩

/-- C7: PNG encoding is independent of the quality parameter: for any PNG and
WebP byte encoders, any image, and any two quality values in 1..=100, the PNG
branch of `encode_image` produces identical results, and on success the
content type is "image/png". -/
theorem C7_png_quality_independent :
    ∀ (pngEnc : Image → Except ConverterError (List Nat)) (webpEnc : Image → Nat → List Nat)
      (img : Image) (q1 q2 : Nat), 1 ≤ q1 → q1 ≤ 100 → 1 ≤ q2 → q2 ≤ 100 →
      encode_image pngEnc webpEnc img OutputFormat.Png q1 =
        encode_image pngEnc webpEnc img OutputFormat.Png q2 ∧
      ∀ bs ct, encode_image pngEnc webpEnc img OutputFormat.Png q1 = Except.ok (bs, ct) →
        ct = "image/png" := by
  intro pngEnc webpEnc img q1 q2 hq1 hq1' hq2 hq2'
  constructor
  · rfl
  · intro bs ct h
    simp only [encode_image] at h
    cases hp : pngEnc img with
    | error e => rw [hp] at h; simp at h
    | ok buffer => rw [hp] at h; simp at h; exact h.2.symm

/-- C7 witness: `C7_png_quality_independent` instantiated at a concrete
encoder pair, image and the qualities 1 and 100. -/
theorem C7_png_quality_independent_witness :
    encode_image (fun _ => Except.ok []) (fun _ _ => []) (Image.mk 8 6) OutputFormat.Png 1 =
      encode_image (fun _ => Except.ok []) (fun _ _ => []) (Image.mk 8 6) OutputFormat.Png 100 :=
  (C7_png_quality_independent (fun _ => Except.ok []) (fun _ _ => []) (Image.mk 8 6) 1 100
    (by decide) (by decide) (by decide) (by decide)).1

/-- C8: the effective quality (the `q` parameter, else the configured
default) passes `check_quality` iff it lies in 1..=100; 0 and 101 are
rejected with `InvalidParameter`, 1 and 100 pass. -/
theorem C8_quality_range :
    (∀ (qopt : Option Nat) (d : Nat),
      ((check_quality (qopt.getD d)).isOk = true ↔
        1 ≤ qopt.getD d ∧ qopt.getD d ≤ 100)) ∧
    check_quality 0 =
      Except.error (ConverterError.InvalidParameter "quality must be between 1 and 100") ∧
    check_quality 101 =
      Except.error (ConverterError.InvalidParameter "quality must be between 1 and 100") ∧
    check_quality 1 = Except.ok 1 ∧
    check_quality 100 = Except.ok 100 := by
  refine ⟨fun qopt d => ?_, rfl, rfl, rfl, rfl⟩
  simp only [check_quality]
  split
  · rename_i hcond
    simp only [Bool.or_eq_true, decide_eq_true_eq] at hcond
    simp [Except.isOk, Except.toBool]
    omega
  · rename_i hcond
    simp only [Bool.or_eq_true, decide_eq_true_eq] at hcond
    simp [Except.isOk, Except.toBool]
    omega

/-- C10: there is a valid width-only request (positive width within the
default 4096 ceiling) and a decoded source with positive dimensions for which
the computed target height truncates to 0, so the resize step runs with a
zero target dimension. -/
theorem C10_zero_target_height :
    ∃ ow oh w : Nat, 1 ≤ ow ∧ 1 ≤ oh ∧ 1 ≤ w ∧ w ≤ 4096 ∧
      resize_image (Image.mk ow oh) (some w) none FitMode.Cover = Image.mk w 0 := by
  refine ⟨1000, 1, 400, by decide, by decide, by decide, by decide, ?_⟩
  with_unfolding_all decide

/-- C1 counterexample: for a 2x1 source resized to width 3 the code produces
height 1 (truncation of 1.5) while the claimed formula
round(original_height * w / original_width) gives 2. -/
theorem C1_counterexample :
    resize_image (Image.mk 2 1) (some 3) none FitMode.Cover = Image.mk 3 1 ∧
    (round ((1 : ℚ) * ((3 : ℚ) / (2 : ℚ)))).toNat = 2 := by
  constructor
  · with_unfolding_all decide
  · have h2 : ((2 : ℤ) : ℚ) = (1 : ℚ) * ((3 : ℚ) / (2 : ℚ)) + 1 / 2 := by norm_num
    rw [round_eq, ← h2, Int.floor_intCast]
    rfl

/-- C1 (amended): for a width-only request the output width is exactly `w`;
the output height is the IEEE-double evaluation of
`original_height * (w / original_width)` truncated toward zero — never
rounded: it equals `floor(original_height * w / original_width)` or that
value minus one, the dip coming from binary64 rounding (a 49x49 source with
`w = 1` yields height 0, because `49.0 * (1.0 / 49.0) = 1 - 2^-53`), under
positivity of all inputs and no-overflow bounds (`oh * w < 2^32 * ow` keeps
the exact quotient below u32::MAX, `oh * w < 2^51` keeps the accumulated
float error below one unit). -/
theorem C1_width_only_truncates (ow oh w : Nat) (fm : FitMode)
    (how : 1 ≤ ow) (hoh : 1 ≤ oh) (hw : 1 ≤ w)
    (hfit : oh * w < 2 ^ 32 * ow) (hfp : oh * w < 2 ^ 51) :
    (resize_image (Image.mk ow oh) (some w) none fm).width = w ∧
    ⌊((oh * w : Nat) : ℚ) / ((ow : Nat) : ℚ)⌋.toNat - 1 ≤
      (resize_image (Image.mk ow oh) (some w) none fm).height ∧
    (resize_image (Image.mk ow oh) (some w) none fm).height ≤
      ⌊((oh * w : Nat) : ℚ) / ((ow : Nat) : ℚ)⌋.toNat ∧
    resize_image (Image.mk 49 49) (some 1) none FitMode.Cover = Image.mk 1 0 := by
  simp only [resize_image, resize_exact]
  have how0 : 0 < ow := how
  have hoh0 : 0 < oh := hoh
  have hw0 : 0 < w := hw
  have howQ : (0 : ℚ) < (ow : ℚ) := by exact_mod_cast how0
  have hohQ : (0 : ℚ) < (oh : ℚ) := by exact_mod_cast hoh0
  have hwQ : (0 : ℚ) < (w : ℚ) := by exact_mod_cast hw0
  have hxwpos : (0 : ℚ) < (w : ℚ) / (ow : ℚ) := div_pos hwQ howQ
  obtain ⟨ht1, ht2⟩ := fl64_bounds ((w : ℚ) / (ow : ℚ)) hxwpos
  set t := fl64 ((w : ℚ) / (ow : ℚ)) with htdef
  have htpos : 0 < t := by
    have hds : (w : ℚ) / (ow : ℚ) / 2 ^ 53 < (w : ℚ) / (ow : ℚ) :=
      div_lt_self hxwpos (by norm_num)
    linarith
  have hppos : 0 < (oh : ℚ) * t := mul_pos hohQ htpos
  obtain ⟨hq1, hq2⟩ := fl64_bounds ((oh : ℚ) * t) hppos
  set q := fl64 ((oh : ℚ) * t) with hqdef
  set x : ℚ := ((oh * w : Nat) : ℚ) / ((ow : Nat) : ℚ) with hxdef
  set F : Nat := oh * w / ow with hFdef
  have hFfloor : ⌊x⌋.toNat = F := by
    rw [hxdef, ← ratTruncNat_eq_floor, ratTruncNat_natCast_div, hFdef]
  have hx_eq : (oh : ℚ) * ((w : ℚ) / (ow : ℚ)) = x := by
    rw [hxdef]
    push_cast
    ring
  have hxpos : 0 < x := by rw [← hx_eq]; positivity
  have hxnn : (0 : ℚ) ≤ x := le_of_lt hxpos
  have hohtle : (oh : ℚ) * t ≤ x + x / 2 ^ 53 := by
    have h := mul_le_mul_of_nonneg_left ht2 (le_of_lt hohQ)
    calc (oh : ℚ) * t ≤ (oh : ℚ) * ((w : ℚ) / (ow : ℚ) + (w : ℚ) / (ow : ℚ) / 2 ^ 53) := h
      _ = x + x / 2 ^ 53 := by rw [← hx_eq]; ring
  have hohtge : x - x / 2 ^ 53 ≤ (oh : ℚ) * t := by
    have h := mul_le_mul_of_nonneg_left ht1 (le_of_lt hohQ)
    calc x - x / 2 ^ 53 = (oh : ℚ) * ((w : ℚ) / (ow : ℚ) - (w : ℚ) / (ow : ℚ) / 2 ^ 53) := by
          rw [← hx_eq]; ring
      _ ≤ (oh : ℚ) * t := h
  have hd1 : ((oh : ℚ) * t) / 2 ^ 53 ≤ (x + x / 2 ^ 53) / 2 ^ 53 := by gcongr
  have hqup : q ≤ x + 3 * (x / 2 ^ 53) := by
    have hfinal : (x + x / 2 ^ 53) + (x + x / 2 ^ 53) / 2 ^ 53 ≤ x + 3 * (x / 2 ^ 53) := by
      linarith
    linarith
  have hqlo : x - 3 * (x / 2 ^ 53) ≤ q := by
    have hfinal : x - 3 * (x / 2 ^ 53) ≤ (x - x / 2 ^ 53) - (x + x / 2 ^ 53) / 2 ^ 53 := by
      linarith
    linarith
  have hMQ : ((oh * w : Nat) : ℚ) < 2 ^ 51 := by exact_mod_cast hfp
  have hMQ3 : 3 * ((oh * w : Nat) : ℚ) < 2 ^ 53 := by
    have h353 : (3 : ℚ) * 2 ^ 51 ≤ 2 ^ 53 := by norm_num
    linarith
  have hxow : x * (ow : ℚ) = ((oh * w : Nat) : ℚ) := by
    rw [hxdef]
    field_simp
  have hupK : x + 3 * (x / 2 ^ 53) < (F : ℚ) + 1 := by
    have hnat : oh * w < (F + 1) * ow := by
      rw [hFdef, Nat.succ_mul]
      exact Nat.lt_div_mul_add how0
    have hkey : (x + 3 * (x / 2 ^ 53)) * (ow : ℚ) < ((F : ℚ) + 1) * (ow : ℚ) := by
      have e1 : (x + 3 * (x / 2 ^ 53)) * (ow : ℚ)
          = ((oh * w : Nat) : ℚ) + 3 * (((oh * w : Nat) : ℚ) / 2 ^ 53) := by
        have e0 : (x + 3 * (x / 2 ^ 53)) * (ow : ℚ)
            = x * (ow : ℚ) + 3 * ((x * (ow : ℚ)) / 2 ^ 53) := by ring
        rw [e0, hxow]
      have e2 : ((F : ℚ) + 1) * (ow : ℚ) = (((F + 1) * ow : Nat) : ℚ) := by push_cast; ring
      have h3lt : 3 * (((oh * w : Nat) : ℚ) / 2 ^ 53) < 1 := by
        rw [show 3 * (((oh * w : Nat) : ℚ) / 2 ^ 53) = 3 * ((oh * w : Nat) : ℚ) / 2 ^ 53 by ring,
          div_lt_one (by norm_num)]
        exact hMQ3
      have hcastnat : ((oh * w : Nat) : ℚ) + 1 ≤ (((F + 1) * ow : Nat) : ℚ) := by
        exact_mod_cast hnat
      rw [e1, e2]
      linarith
    exact lt_of_mul_lt_mul_right hkey (le_of_lt howQ)
  have hloK : (F : ℚ) - 1 ≤ x - 3 * (x / 2 ^ 53) := by
    have hFle : (F : ℚ) ≤ x := by
      have hnat2 : F * ow ≤ oh * w := by
        rw [hFdef]
        exact Nat.div_mul_le_self _ _
      rw [hxdef, le_div_iff₀ howQ]
      exact_mod_cast hnat2
    have hxleM : x ≤ ((oh * w : Nat) : ℚ) := by
      rw [hxdef]
      apply div_le_self
      · positivity
      · exact_mod_cast how
    have h3x : 3 * (x / 2 ^ 53) ≤ 1 := by
      rw [show 3 * (x / 2 ^ 53) = 3 * x / 2 ^ 53 by ring, div_le_one (by norm_num)]
      linarith
    linarith
  have hkq : ratTruncNat q ≤ F := by
    have h1 : q < ((F : ℤ) : ℚ) + 1 := by push_cast; linarith
    have h2 : ⌊q⌋ < (F : ℤ) + 1 := Int.floor_lt.mpr (by push_cast; push_cast at h1; linarith)
    rw [ratTruncNat_eq_floor]
    omega
  have hkq2 : F - 1 ≤ ratTruncNat q := by
    have h1 : ((F : ℤ) : ℚ) - 1 ≤ q := by push_cast; linarith
    have h2 : (F : ℤ) - 1 ≤ ⌊q⌋ := Int.le_floor.mpr (by push_cast; push_cast at h1; linarith)
    rw [ratTruncNat_eq_floor]
    omega
  have hFu32 : F ≤ u32Max := by
    have h1 : F < 2 ^ 32 := by
      rw [hFdef, Nat.div_lt_iff_lt_mul how0]
      exact hfit
    simp only [u32Max]
    omega
  refine ⟨by trivial, ?_, ?_, by with_unfolding_all decide⟩
  · rw [hFfloor]
    omega
  · rw [hFfloor]
    omega

/-- C1 witness: `C1_width_only_truncates` at the 2x1 source with w = 3. -/
theorem C1_width_only_truncates_witness :
    (resize_image (Image.mk 2 1) (some 3) none FitMode.Cover).width = 3 ∧
    ⌊((1 * 3 : Nat) : ℚ) / ((2 : Nat) : ℚ)⌋.toNat - 1 ≤
      (resize_image (Image.mk 2 1) (some 3) none FitMode.Cover).height ∧
    (resize_image (Image.mk 2 1) (some 3) none FitMode.Cover).height ≤
      ⌊((1 * 3 : Nat) : ℚ) / ((2 : Nat) : ℚ)⌋.toNat ∧
    resize_image (Image.mk 49 49) (some 1) none FitMode.Cover = Image.mk 1 0 :=
  C1_width_only_truncates 2 1 3 FitMode.Cover (by decide) (by decide) (by decide)
    (by norm_num) (by norm_num)

/-- C6 counterexample: for the 3000000000x1 source and the valid target box
(1, 2) the COVER resize produces 1x1, not the requested 1x2: the image
crate's clamping of the scaled dimensions to u32::MAX makes the center crop
come up short. -/
theorem C6_counterexample :
    resize_image (Image.mk 3000000000 1) (some 1) (some 2) FitMode.Cover = Image.mk 1 1 ∧
    Image.mk 1 1 ≠ Image.mk 1 2 := by
  constructor
  · have hrd : resize_dimensions 3000000000 1 1 2 true = (u32Max, 1) := by
      simp only [resize_dimensions, if_true]
      rw [max_eq_right (by push_cast; norm_num :
        ((1 : Nat) : ℚ) / ((3000000000 : Nat) : ℚ) ≤ ((2 : Nat) : ℚ) / ((1 : Nat) : ℚ))]
      rw [ratRoundNat_mul_div 3000000000 2 1 (by norm_num)]
      rw [ratRoundNat_mul_div 1 2 1 (by norm_num)]
      rw [ratRoundNat_mul_div 1 u32Max 3000000000 (by norm_num)]
      rw [ratRoundNat_mul_div 3000000000 u32Max 1 (by norm_num)]
      decide
    simp only [resize_image, resize_to_fill, resize_exact, crop_dimms]
    rw [hrd]
    decide
  · decide

/-- C6 (amended): COVER-mode conversion produces exactly the requested box
(w, h) for positive targets within a u32 `max_dimension` ceiling whenever the
source dimensions are positive and the aspect-scaled cover dimensions do not
overflow u32 (ow * h <= u32::MAX * oh and oh * w <= u32::MAX * ow); without
the no-overflow side conditions the counterexample above applies. -/
theorem C6_cover_exact_dims (cfg : Config) (ow oh w h : Nat)
    (hcfg : cfg.max_dimension ≤ u32Max)
    (_hw : 1 ≤ w) (_hh : 1 ≤ h) (hwM : w ≤ cfg.max_dimension) (hhM : h ≤ cfg.max_dimension)
    (how : 1 ≤ ow) (hoh : 1 ≤ oh)
    (hA : ow * h ≤ u32Max * oh) (hB : oh * w ≤ u32Max * ow) :
    resize_image (Image.mk ow oh) (some w) (some h) FitMode.Cover = Image.mk w h := by
  have hres := resize_to_fill_exact ow oh w h (by omega) (by omega) (by omega) (by omega) hA hB
  simpa [resize_image] using hres

/-- C6 witness: `C6_cover_exact_dims` for an 800x400 source and a
200x100 COVER target under the default configuration. -/
theorem C6_cover_exact_dims_witness :
    resize_image (Image.mk 800 400) (some 200) (some 100) FitMode.Cover = Image.mk 200 100 :=
  C6_cover_exact_dims (Config.mk 85 4096) 800 400 200 100 (by decide) (by decide) (by decide)
    (by decide) (by decide) (by decide) (by decide) (by decide) (by decide)

/-- C5: every validation error (malformed path, bad dimension, bad quality)
makes the handler return that error with the fetch flag still false, for
every possible fetch/decode/encode collaborator; in particular w = 5000 under
max_dimension = 4096 yields DimensionTooLarge(5000, 4096) without any storage
access. -/
theorem C5_fail_fast :
    (∀ (cfg : Config) (fetch : List Char → List Char → Except ConverterError (List Nat))
      (decode : List Nat → Except ConverterError Image)
      (pngEnc : Image → Except ConverterError (List Nat))
      (webpEnc : Image → Nat → List Nat)
      (path : List Char) (params : ImageQuery) (accept : Option (List Char))
      (e : ConverterError),
      validate cfg path params = Except.error e →
      get_image cfg fetch decode pngEnc webpEnc path params accept = (Except.error e, false)) ∧
    (∀ (fetch : List Char → List Char → Except ConverterError (List Nat))
      (decode : List Nat → Except ConverterError Image)
      (pngEnc : Image → Except ConverterError (List Nat))
      (webpEnc : Image → Nat → List Nat) (accept : Option (List Char)),
      get_image (Config.mk 85 4096) fetch decode pngEnc webpEnc "images/photo.png".toList
        (ImageQuery.mk (some 5000) none none none) accept =
        (Except.error (ConverterError.DimensionTooLarge 5000 4096), false)) := by
  constructor
  · intro cfg fetch decode pngEnc webpEnc path params accept e hv
    simp only [validate] at hv
    simp only [get_image]
    cases hp : parse_path path with
    | error e1 =>
      rw [hp] at hv
      simp only [Except.error.injEq] at hv
      subst hv
      rfl
    | ok bk =>
      rw [hp] at hv
      cases hw2 : check_dim cfg.max_dimension params.w "width must be greater than 0" with
      | error e1 =>
        rw [hw2] at hv
        simp only [Except.error.injEq] at hv
        subst hv
        rfl
      | ok u =>
        rw [hw2] at hv
        cases hh2 : check_dim cfg.max_dimension params.h "height must be greater than 0" with
        | error e1 =>
          rw [hh2] at hv
          simp only [Except.error.injEq] at hv
          subst hv
          rfl
        | ok v =>
          rw [hh2] at hv
          cases hq2 : check_quality (params.q.getD cfg.webp_default_quality) with
          | error e1 =>
            rw [hq2] at hv
            simp only [Except.error.injEq] at hv
            subst hv
            rfl
          | ok q =>
            rw [hq2] at hv
            simp at hv
  · intro fetch decode pngEnc webpEnc accept
    rfl

/-- C5 witness: `C5_fail_fast` at concrete collaborators, with the validation
error discharged definitionally. -/
theorem C5_fail_fast_witness :
    get_image (Config.mk 85 4096) (fun _ _ => Except.error (ConverterError.NotFound "missing"))
      (fun _ => Except.error (ConverterError.ImageError "bad")) (fun _ => Except.ok [])
      (fun _ _ => []) "images/photo.png".toList (ImageQuery.mk (some 5000) none none none) none =
      (Except.error (ConverterError.DimensionTooLarge 5000 4096), false) :=
  C5_fail_fast.1 (Config.mk 85 4096) (fun _ _ => Except.error (ConverterError.NotFound "missing"))
    (fun _ => Except.error (ConverterError.ImageError "bad")) (fun _ => Except.ok [])
    (fun _ _ => []) "images/photo.png".toList (ImageQuery.mk (some 5000) none none none) none
    (ConverterError.DimensionTooLarge 5000 4096) rfl

end Soeji
